import Mathlib

/-!
Shallow embedding of `src/runner/runner.ts` from the `vscode-vitest`
extension, covering the run-orchestration core: the Result Mapper
(`markResult`, `testMessageForTestError`, `parseLocationFromStacks`), the
Pattern/File Resolver (`getTestFiles`, `formatTestPattern`), the Run Registry
(`startTestRun`, `endTestRun`), the continuous-watch registration
(`watchContinuousTests`, `createContinuousRequest`), the one-shot entry point
(`runTests`) and the event handlers (`onTaskUpdate`, `onFinished`,
`onConsoleLog`).

External collaborators (the `vscode` API, the `TestTree`, the
`VitestFolderAPI`, `strip-ansi`, `pathe.normalize`, `path.sep`) are modelled
as parameters or as abstract effect values: reporting calls made on a
`vscode.TestRun` become elements of a `ReportCall` list, and RPC calls to the
Vitest process become `WatchCall` / `ExecCall` values.
-/

namespace VitestRunner

/-- A JavaScript number as consumed by the location logic: either `NaN` or an
integer value.  The runner only ever checks `Number.isNaN` on these fields and
subtracts one from them, so this is a faithful carrier. -/
inductive JsNum where
  | nan
  | int (n : Int)
deriving DecidableEq, Repr

/-- `Number.isNaN`. -/
def JsNum.isNaN : JsNum → Bool
  | .nan => true
  | .int _ => false

/-- `x - 1` on a JavaScript number (`NaN - 1` stays `NaN`). -/
def JsNum.sub1 : JsNum → JsNum
  | .nan => .nan
  | .int n => .int (n - 1)

/-- A JavaScript value held in an error's `actual` / `expected` fields (typed
loosely in the source); nullish values are modelled as `Option.none` at the
use sites, so this type only carries proper values. -/
inductive JsVal where
  | str (s : String)
  | num (n : Int)
deriving DecidableEq, Repr

/-- `vitest`'s `ParsedStack`: one captured stack frame. -/
structure ParsedStack where
  file : String
  line : JsNum
  column : JsNum
deriving DecidableEq, Repr

/-- `vitest`'s `ErrorWithDiff` as read by the runner: the error text, the
optional `stack` string, the optional `actual` / `expected` values
(`Option.none` models `null` / `undefined`) and the optional parsed frames. -/
structure ErrorWithDiff where
  message : String
  stack : Option String := none
  actual : Option JsVal := none
  expected : Option JsVal := none
  «stacks» : Option (List ParsedStack) := none
deriving DecidableEq, Repr

/-- The result states a `TaskResult` can carry (`vitest`'s `TaskState`,
restricted to the values `markResult` switches on; `run` is the in-progress
state). -/
inductive TaskState where
  | pass
  | fail
  | skip
  | todo
  | only
  | run
deriving DecidableEq, Repr

/-- `vitest`'s `TaskResult` as read by `markResult`: a state, an optional
errors list and an optional duration (durations are passed through verbatim,
modelled as integers). -/
structure TaskResult where
  state : TaskState
  errors : Option (List ErrorWithDiff) := none
  duration : Option Int := none
deriving DecidableEq, Repr

/-- The type tag of a `vitest` task; `markResult` only reads `task?.type`. -/
inductive TaskType where
  | suite
  | test
  | custom
deriving DecidableEq, Repr

/-- The part of a `vitest` `Task` that `markResult` consults. -/
structure TaskLite where
  type : TaskType
deriving DecidableEq, Repr

/-- The part of a `vscode.TestItem` the Result Mapper touches: its
`uri.fsPath` and its mutable `error` description field. -/
structure VSItem where
  fsPath : String
  error : Option String := none
deriving DecidableEq, Repr

/-- The `DebuggerLocation` record produced by `parseLocationFromStacks`. -/
structure DebuggerLocation where
  path : String
  line : JsNum
  column : JsNum
deriving DecidableEq, Repr

/-- A `vscode.TestMessage`: the text, the optional `expectedOutput` /
`actualOutput` set by `TestMessage.diff`, and the optional attached location
(path plus zero-based position, as built from `new vscode.Position`). -/
structure TestMessage where
  message : String
  expected : Option JsVal := none
  actual : Option JsVal := none
  location : Option (String × JsNum × JsNum) := none
deriving DecidableEq, Repr

/-- One reporting call made on a `vscode.TestRun` by the Result Mapper. -/
inductive ReportCall where
  | started (item : VSItem)
  | passed (item : VSItem) (duration : Option Int)
  | failed (item : VSItem) (messages : List TestMessage) (duration : Option Int)
  | errored (item : VSItem) (messages : List TestMessage) (duration : Option Int)
  | skipped (item : VSItem)
deriving DecidableEq, Repr

/-- JavaScript `a || b` on an optional string `a`: `undefined` and the empty
string are falsy (used for `err.stack || err.message`). -/
def jsStrOr (a : Option String) (b : String) : String :=
  match a with
  | some s => if s = "" then b else s
  | none => b

/-- `stack.file.replace(/\//g, path.sep)`: normalize separators to the host
convention.  `path.sep` is modelled as the character `sep`. -/
def replaceSlashes (sep : Char) (s : String) : String :=
  String.map (fun c => if c = '/' then sep else c) s

/-- The record returned by `getSourceFilepathAndLocationFromStack`. -/
structure StackLocation where
  sourceFilepath : String
  line : JsNum
  column : JsNum
deriving DecidableEq, Repr

/-- `getSourceFilepathAndLocationFromStack` (runner.ts lines 398–404):
separator-normalized file path plus the frame's raw line and column. -/
def getSourceFilepathAndLocationFromStack (sep : Char) (stack : ParsedStack) :
    StackLocation :=
  { sourceFilepath := replaceSlashes sep stack.file
    line := stack.line
    column := stack.column }

/-- The `for`-loop body of `parseLocationFromStacks`: scan the frames in
order, skipping any frame whose normalized path differs from the target or
whose line or column is `NaN`, and return the first surviving frame. -/
def parseLocationLoop (sep : Char) (targetFilepath : String) :
    List ParsedStack → Option DebuggerLocation
  | [] => none
  | stack :: rest =>
    let r := getSourceFilepathAndLocationFromStack sep stack
    if r.sourceFilepath ≠ targetFilepath ∨ r.column.isNaN ∨ r.line.isNaN then
      parseLocationLoop sep targetFilepath rest
    else
      some { path := r.sourceFilepath, line := r.line, column := r.column }

/-- `parseLocationFromStacks` (runner.ts lines 406–422): an empty frame list
yields no location; otherwise the first qualifying frame wins.  The target
path is `testItem.uri!.fsPath`. -/
def parseLocationFromStacks (sep : Char) (testItem : VSItem)
    («stacks» : List ParsedStack) : Option DebuggerLocation :=
  if «stacks».isEmpty then
    none
  else
    parseLocationLoop sep testItem.fsPath «stacks»

/-- The diff condition of `testMessageForTestError` (runner.ts line 379):
`error.actual != null && error.expected != null && error.actual !==
'undefined' && error.expected !== 'undefined'`. -/
def diffCondition (error : ErrorWithDiff) : Bool :=
  match error.actual, error.expected with
  | some a, some e => a ≠ JsVal.str "undefined" ∧ e ≠ JsVal.str "undefined"
  | _, _ => false

/-- `testMessageForTestError` (runner.ts lines 374–390).  `strip` models the
external `strip-ansi` library; `stripAnsi(error.message) ?? ''` never takes
the `?? ''` branch because `strip-ansi` returns a string. -/
def testMessageForTestError (strip : String → String) (sep : Char)
    (testItem : VSItem) (error : Option ErrorWithDiff) : TestMessage :=
  match error with
  | none => { message := "Unknown error" }
  | some err =>
    let base : TestMessage :=
      if diffCondition err then
        { message := strip err.message
          expected := err.expected
          actual := err.actual }
      else
        { message := strip err.message }
    match parseLocationFromStacks sep testItem (err.«stacks».getD []) with
    | some location =>
      { base with location := some (location.path, location.line.sub1, location.column.sub1) }
    | none => base

/-- `task?.type === 'suite'`. -/
def taskIsSuite : Option TaskLite → Bool
  | some t => t.type = TaskType.suite
  | none => false

/-- `markResult` (runner.ts lines 331–371).  Returns the reporting calls made
on the run together with the item's `error` field after the call (which the
suite-fail branch mutates and every other branch leaves unchanged).  A `none`
result reports `started`.  On `fail`: a suite-typed task with no errors list
returns early with no call; a suite-typed task with errors gets the
concatenated messages attached as `test.error` and is reported `errored`; any
other task is reported `failed` with one message per error. -/
def markResult (strip : String → String) (sep : Char) (test : VSItem)
    (result : Option TaskResult) (task : Option TaskLite) :
    List ReportCall × Option String :=
  match result with
  | none => ([ReportCall.started test], test.error)
  | some result =>
    match result.state with
    | .fail =>
      if taskIsSuite task then
        match result.errors with
        | none => ([], test.error)
        | some errs =>
          let messages := errs.map fun err =>
            ({ message := jsStrOr err.stack err.message } : TestMessage)
          ([ReportCall.errored test messages result.duration],
            some (String.intercalate "\n" (messages.map (·.message))))
      else
        let errors := (result.errors.getD []).map fun err =>
          testMessageForTestError strip sep test (some err)
        ([ReportCall.failed test errors result.duration], test.error)
    | .pass => ([ReportCall.passed test result.duration], test.error)
    | .todo => ([ReportCall.skipped test], test.error)
    | .skip => ([ReportCall.skipped test], test.error)
    | .only => ([ReportCall.started test], test.error)
    | .run => ([ReportCall.started test], test.error)

/-- Modelled from the spec: the `TestData` variants of `testTreeData.ts`
(which is outside the embedded source).  Per §9 of the spec, test-explorer
data is "a tagged variant over \x7bFile, Folder, Case\x7d with Case alone
carrying a pattern-generating capability"; `folder` carries its path, `file`
its `filepath`, and `case` its owning file's `filepath` (the `data.file`
field used by `isFileIncluded` and `getTestRunByData`) plus the string its
`getTestNamePattern` method returns. -/
inductive TestData where
  | folder (path : String)
  | file (filepath : String)
  | case (fileFilepath : String) (pattern : String)
deriving DecidableEq, Repr

/-- A `vscode.TestItem` as seen by the Pattern/File Resolver: its associated
`TestData` (the `getTestData` lookup), its `uri.fsPath` and its children. -/
inductive TItem where
  | mk (data : TestData) (fsPath : String) (children : List TItem)

/-- The `getTestData` association. -/
def TItem.data : TItem → TestData
  | .mk d _ _ => d

/-- `item.uri!.fsPath`. -/
def TItem.fsPath : TItem → String
  | .mk _ p _ => p

/-- `item.children`. -/
def TItem.children : TItem → List TItem
  | .mk _ _ c => c

/-- `isFileIncluded` (runner.ts lines 199–217): a file is included when some
selected item is a test file with that path, a folder containing (recursively)
such a file, or any other test datum whose owning file has that path. -/
def isFileIncluded (file : String) : List TItem → Bool
  | [] => false
  | .mk data _ children :: rest =>
    (match data with
      | .file fp => fp = file
      | .folder _ => isFileIncluded file children
      | .case fp _ => fp = file)
    || isFileIncluded file rest

/-- First-occurrence deduplication: the semantics of
`Array.from(new Set(list))` on a list of strings. -/
def dedupFirst (l : List String) : List String :=
  l.foldl (fun acc x => if x ∈ acc then acc else acc ++ [x]) []

/-- `getTestFiles` (runner.ts lines 424–434).  `norm` models the external
`pathe.normalize`; folders are marked with a trailing `/`, empty strings are
dropped (`.filter(Boolean)`) and duplicates removed with first-occurrence
order (`Array.from(new Set(...))`). -/
def getTestFiles (norm : String → String) (tests : List TItem) : List String :=
  dedupFirst ((tests.map fun test =>
    match test.data with
    | .folder _ => norm test.fsPath ++ "/"
    | _ => norm test.fsPath).filter (· ≠ ""))

/-- One iteration of the `formatTestPattern` loop: push
`data.getTestNamePattern()` when the selected item's data has the capability
(`'getTestNamePattern' in data`), otherwise `continue`. -/
def pushPattern (acc : List String) (test : TItem) : List String :=
  match test.data with
  | .case _ pat => acc ++ [pat]
  | _ => acc

/-- `formatTestPattern` (runner.ts lines 436–447): collect
`getTestNamePattern()` from every selected item that has the capability, in
order; no patterns means no filter, otherwise join with `|`. -/
def formatTestPattern (tests : List TItem) : Option String :=
  let patterns := tests.foldl pushPattern []
  if patterns.isEmpty then
    none
  else
    some (String.intercalate "|" patterns)

/-- A `vscode.TestRunRequest` as the runner reads it: the optional `include`
list, the optional profile and the `continuous` flag.  JavaScript sets compare
requests by object identity, so each request carries a numeric identity `id`
used only for the set-membership test of `Set.add`. -/
structure WReq where
  id : Nat
  include? : Option (List TItem) := none
  profile : Option Nat := none
  continuous : Bool := false

/-- `request.include || []` flattened to a list (also the value of
`request.include?.length` emptiness tests: `undefined` and `[]` are both
"no inclusion filter"). -/
def WReq.includeList (r : WReq) : List TItem :=
  r.include?.getD []

/-- The runner's mutable fields (runner.ts lines 18–23): the continuous
request set (in insertion order), the active one-shot request and the
file→run map.  Runs are identified by the numeric counter `nextRunId`; the
map keeps insertion order like a JavaScript `Map`. -/
structure RunnerState where
  testRunsByFile : List (String × Nat) := []
  nextRunId : Nat := 0
  simpleTestRunRequest : Option WReq := none
  continuousRequests : List WReq := []

/-- `Map.get` on the file→run map. -/
def lookupRun (file : String) : List (String × Nat) → Option Nat
  | [] => none
  | (f, r) :: rest => if f = file then some r else lookupRun file rest

/-- The watch RPC issued by `watchContinuousTests`: either unfiltered
(`api.watchTests()`) or filtered (`api.watchTests(files, pattern)`). -/
inductive WatchCall where
  | all
  | filtered (files : List String) (pattern : Option String)
deriving DecidableEq, Repr

/-- `Set.add` on the continuous-request set: append unless already present
(presence by object identity, modelled by `id`). -/
def addRequest (regs : List WReq) (request : WReq) : List WReq :=
  if regs.any (fun r => r.id = request.id) then regs else regs ++ [request]

/-- One step of flattening `r.include || []` over the registrations (the
iteration underlying `.map(r => r.include || []).flat()` and the
include-accumulation loop of `createContinuousRequest`). -/
def appendInclude (acc : List TItem) (r : WReq) : List TItem :=
  acc ++ r.includeList

/-- `watchContinuousTests` (runner.ts lines 120–138), restricted to its
state effect and the watch RPC it issues: add the request to the continuous
set; if the incoming request has no inclusion filter start an unfiltered
watch, otherwise flatten `r.include || []` over every registered request
(`[...this.continuousRequests].map(r => r.include || []).flat()`) and start a
filtered watch with the resolved files and name pattern. -/
def watchContinuousTests (norm : String → String) (regs : List WReq)
    (request : WReq) : List WReq × WatchCall :=
  let regs2 := addRequest regs request
  if request.includeList.isEmpty then
    (regs2, WatchCall.all)
  else
    let inc := regs2.foldl appendInclude []
    (regs2, WatchCall.filtered (getTestFiles norm inc) (formatTestPattern inc))

/-- `createContinuousRequest` (runner.ts lines 236–254): no registrations
means no request; the first registration without an inclusion filter (in
iteration order) is returned as-is; otherwise a fresh continuous request is
synthesized whose include is the concatenation of all registrations' includes
and whose profile comes from the first registration.  The synthesized request
is a fresh object (fresh identity, modelled as `id := 0`); it is never added
to the continuous set. -/
def createContinuousRequest (regs : List WReq) : Option WReq :=
  if regs.isEmpty then
    none
  else
    match regs.find? (fun r => r.includeList.isEmpty) with
    | some r => some r
    | none =>
      some { id := 0
             include? := some (regs.foldl appendInclude [])
             profile := regs.head?.bind (·.profile)
             continuous := true }

/-- The inclusion-filter skip of the `startTestRun` loop (runner.ts line 270):
`request.include && !this.isFileIncluded(file, request.include)`.  An
`undefined` include never skips; an empty include array is truthy in
JavaScript and skips every file. -/
def includeSkips (request : WReq) (file : String) : Bool :=
  match request.include? with
  | none => false
  | some inc => !(isFileIncluded file inc)

/-- `file[file.length - 1] === '/'`: the folder marker test. -/
def isFolderPath (file : String) : Bool :=
  file.data.getLast? = some '/'

/-- The per-file body of the `startTestRun` loop for a non-folder path
(runner.ts lines 270–291): skip when excluded by the request's include
filter, skip when a run is already registered for the file, otherwise create
a run (a fresh id from the counter) and register it under the file. -/
def processRunFile (request : WReq) (st : RunnerState) (file : String) :
    RunnerState :=
  if includeSkips request file then
    st
  else
    match lookupRun file st.testRunsByFile with
    | some _ => st
    | none =>
      { st with
        testRunsByFile := st.testRunsByFile ++ [(file, st.nextRunId)]
        nextRunId := st.nextRunId + 1 }

/-- The `startTestRun` loop over the file list (runner.ts lines 262–291).
A folder-marked path is expanded through `getTestFilesInFolder` (modelled by
the parameter `folderFiles`) and `startTestRun` recurses on the expansion;
since `getTestFilesInFolder` only returns `TestFile.filepath` values, which
never carry the trailing-separator marker, that recursive call reduces to
per-file processing of the expanded paths. -/
def startTestRunLoop (folderFiles : String → List String) (request : WReq)
    (st : RunnerState) (files : List String) : RunnerState :=
  files.foldl (fun s file =>
    if isFolderPath file then
      (folderFiles file).foldl (processRunFile request) s
    else
      processRunFile request s file) st

/-- The request resolution at the head of `startTestRun` (runner.ts line
257): `primaryRequest || this.simpleTestRunRequest ||
this.createContinuousRequest()`. -/
def resolveRequest (st : RunnerState) (primaryRequest : Option WReq) :
    Option WReq :=
  (primaryRequest.orElse fun _ => st.simpleTestRunRequest).orElse fun _ =>
    createContinuousRequest st.continuousRequests

/-- `startTestRun` (runner.ts lines 256–292): resolve the effective request
(doing nothing when there is none) and run the registration loop. -/
def startTestRun (folderFiles : String → List String) (st : RunnerState)
    (files : List String) (primaryRequest : Option WReq) : RunnerState :=
  match resolveRequest st primaryRequest with
  | none => st
  | some request => startTestRunLoop folderFiles request st files

/-- `endTestRun` (runner.ts lines 314–318): delete the finished run's file
from the file→run map (the run's `TestRunData.file` is the key it was
registered under) and end the run. -/
def endTestRun (st : RunnerState) (file : String) : RunnerState :=
  { st with testRunsByFile := st.testRunsByFile.filter (fun p => p.1 ≠ file) }

/-- The execution RPC issued by the non-continuous branch of `runTests`:
`api.runFiles()` for the whole workspace, or `api.runFiles(files, pattern)`
for a selection. -/
inductive ExecCall where
  | runAllFiles
  | runFilesWith (files : List String) (pattern : Option String)
deriving DecidableEq, Repr

/-- The observable outcome of one `runTests` call. -/
structure RunTestsResult where
  state : RunnerState
  outcome : Except String Unit
  watchCall : Option WatchCall := none
  execCall : Option ExecCall := none

/-- `runTests` (runner.ts lines 156–186).  A continuous request is delegated
to `watchContinuousTests` and the one-shot marker is untouched.  Otherwise the
source sets `this.simpleTestRunRequest = request`, computes the file set and
pattern from `request.include || []`, and awaits `api.runFiles`; the
parameter `runFilesOutcome` models that external call's result.  Only after
the `await` returns normally does `this.simpleTestRunRequest = null` run:
there is no `try`/`finally`, so when the call rejects, the exception
propagates and the assignment on line 185 never executes, leaving the marker
set (the cancellation handler, not modelled here, is the only other place
that clears it). -/
def runTests (norm : String → String) (st : RunnerState) (request : WReq)
    (runFilesOutcome : Except String Unit) : RunTestsResult :=
  if request.continuous then
    let w := watchContinuousTests norm st.continuousRequests request
    { state := { st with continuousRequests := w.1 }
      outcome := Except.ok ()
      watchCall := some w.2 }
  else
    let tests := request.includeList
    let execCall :=
      if tests.isEmpty then
        ExecCall.runAllFiles
      else
        ExecCall.runFilesWith (getTestFiles norm tests) (formatTestPattern tests)
    match runFilesOutcome with
    | .error e =>
      { state := { st with simpleTestRunRequest := some request }
        outcome := Except.error e
        execCall := some execCall }
    | .ok _ =>
      { state := { st with simpleTestRunRequest := none }
        outcome := Except.ok ()
        execCall := some execCall }

/-- `content.replace(/(?<!\r)\n/g, '\r\n')` (runner.ts line 97), embedded as
the scan the regex engine performs: a `\r\n` pair is kept intact (the
lookbehind rejects the match), any other `\n` is replaced by `\r\n`, and all
other characters pass through. -/
def replaceBareNewlines : List Char → List Char
  | [] => []
  | '\r' :: '\n' :: rest => '\r' :: '\n' :: replaceBareNewlines rest
  | '\n' :: rest => '\r' :: '\n' :: replaceBareNewlines rest
  | c :: rest => c :: replaceBareNewlines rest

/-- String version of `replaceBareNewlines`. -/
def normalizeLineEndings (s : String) : String :=
  String.mk (replaceBareNewlines s.data)

/-- The effect of the `onConsoleLog` handler. -/
inductive ConsoleEffect where
  | appendOutput (runId : Nat) (text : String) (item : Option VSItem)
  | logInfo (text : String)
deriving DecidableEq, Repr

/-- The `onConsoleLog` handler (runner.ts lines 92–105).  `resolve` models
the composition `taskId ? tree.getTestDataByTaskId(taskId) : undefined`
followed by `getTestRunByData`, yielding the tracked run and the resolved
item when both exist.  With a tracked run the content is appended to the
run's output with bare newlines rewritten; otherwise it goes to the general
log. -/
def handleConsoleLog (resolve : Option String → Option (Nat × VSItem))
    (content : String) (taskId : Option String) : ConsoleEffect :=
  match resolve taskId with
  | some (runId, item) =>
    ConsoleEffect.appendOutput runId (normalizeLineEndings content) (some item)
  | none => ConsoleEffect.logInfo content

/-- `getTestRunByData` (runner.ts lines 188–197) on the file→run map: folders
have no run, files resolve by their own path, anything else resolves through
its owning file. -/
def getTestRunByData (runs : List (String × Nat)) : TestData → Option Nat
  | .folder _ => none
  | .file fp => lookupRun fp runs
  | .case fp _ => lookupRun fp runs

/-- The explorer data resolved for a task: its `TestData` and its
`vscode.TestItem`. -/
structure ResolvedTest where
  data : TestData
  item : VSItem
deriving Repr

/-- The per-pack body of the `onTaskUpdate` handler (runner.ts lines 41–55).
`resolve` models `tree.getTestDataByTaskId`.  An unresolvable task id is
logged and skipped; a resolved task with no registered run for its owning
file is skipped silently; otherwise `markResult` is applied — with no `task`
argument, because the update pack only carries the task id and result, so the
task's type never reaches the Result Mapper on this path. -/
def handleTaskUpdatePack (resolve : String → Option ResolvedTest)
    (strip : String → String) (sep : Char) (st : RunnerState)
    (taskId : String) (result : Option TaskResult) :
    List ReportCall × Option (VSItem × Option String) :=
  match resolve taskId with
  | none => ([], none)
  | some test =>
    match getTestRunByData st.testRunsByFile test.data with
    | none => ([], none)
    | some _ =>
      let r := markResult strip sep test.item result none
      (r.1, some (test.item, r.2))

/-- A `vitest` `File` task as consumed by the `onFinished` handler: its id
(the key `tree.getTestDataByTask` resolves by), its result and its type
(`File` extends `Suite`, so its type tag is `suite`). -/
structure FileTask where
  key : String
  result : Option TaskResult := none
  type : TaskType := TaskType.suite
deriving Repr

/-- The resolution of a finished file to explorer data (the source casts it
`as TestFile | undefined`): the `TestFile`'s `filepath` and its item. -/
structure ResolvedFile where
  filepath : String
  item : VSItem
deriving Repr

/-- The per-file body of the `onFinished` handler (runner.ts lines 82–89).
`resolve` models `tree.getTestDataByTask`.  Only when the file resolves to
test data and a run is registered for its path does the handler mark the
final result and finalize (end) the run, deleting it from the file→run map;
otherwise both the registry and the run are left untouched and no reporting
call is made. -/
def handleFinishedFile (resolve : String → Option ResolvedFile)
    (strip : String → String) (sep : Char) (st : RunnerState)
    (file : FileTask) : RunnerState × List ReportCall :=
  match resolve file.key with
  | none => (st, [])
  | some data =>
    match lookupRun data.filepath st.testRunsByFile with
    | none => (st, [])
    | some _run =>
      let r := markResult strip sep data.item file.result (some { type := file.type })
      (endTestRun st data.filepath, r.1)

/-! ### Specification-side definitions

These definitions follow the wording of the specification; the theorems below
compare them with the source-derived definitions above. -/

/-- Spec wording for C5: a frame qualifies when its path, normalized to the
host separator, equals the test item's declared file and its line and column
are not `NaN`. -/
def stackFrameMatches (sep : Char) (testItem : VSItem) (s : ParsedStack) : Bool :=
  decide (replaceSlashes sep s.file = testItem.fsPath) && !s.line.isNaN && !s.column.isNaN

/-- The location carried by a qualifying frame. -/
def frameLocation (sep : Char) (s : ParsedStack) : DebuggerLocation :=
  { path := replaceSlashes sep s.file, line := s.line, column := s.column }

/-- Spec wording for C6: the name-matching expressions of exactly the
selected items that carry the name-matching capability, in selection order. -/
def testNamePatterns (tests : List TItem) : List String :=
  tests.filterMap fun t =>
    match t.data with
    | .case _ p => some p
    | _ => none

/-! ### Theorems -/

theorem parseLocationLoop_eq_find (sep : Char) (target : String) :
    ∀ fs : List ParsedStack,
      parseLocationLoop sep target fs =
        (fs.find? fun s =>
            decide (replaceSlashes sep s.file = target) && !s.line.isNaN && !s.column.isNaN).map
          (frameLocation sep)
  | [] => by simp [parseLocationLoop]
  | s :: rest => by
    by_cases h : replaceSlashes sep s.file = target <;>
      cases hl : s.line.isNaN <;> cases hc : s.column.isNaN <;>
        simp [parseLocationLoop, getSourceFilepathAndLocationFromStack, List.find?_cons,
          h, hl, hc, frameLocation, parseLocationLoop_eq_find sep target rest]

/-- C5: for every list of stack frames and test item, location resolution
returns the first frame in list order whose separator-normalized path equals
the item's declared source file and whose line and column are not `NaN`; if
no frame qualifies (including the empty list), no location is produced. -/
theorem parseLocation_first_matching_frame (sep : Char) (testItem : VSItem)
    (fs : List ParsedStack) :
    parseLocationFromStacks sep testItem fs =
      (fs.find? (stackFrameMatches sep testItem)).map (frameLocation sep) := by
  cases fs with
  | nil => simp [parseLocationFromStacks]
  | cons s rest =>
    unfold parseLocationFromStacks
    simp only [List.isEmpty_cons, if_neg]
    rw [parseLocationLoop_eq_find]
    rfl

theorem formatTestPattern_foldl (tests : List TItem) :
    ∀ acc : List String,
      tests.foldl pushPattern acc = acc ++ testNamePatterns tests := by
  induction tests with
  | nil => intro acc; simp [testNamePatterns]
  | cons t rest ih =>
    intro acc
    rw [List.foldl_cons, ih]
    rcases t with ⟨d, p, c⟩
    cases d <;>
      simp [pushPattern, testNamePatterns, List.filterMap_cons, TItem.data]

/-- C6: the resolved name pattern is the name-matching expressions of exactly
the selected items that carry the capability, joined in selection order by
`|`; when no selected item carries the capability the pattern is absent. -/
theorem formatTestPattern_joins_case_patterns (tests : List TItem) :
    formatTestPattern tests =
      if testNamePatterns tests = [] then none
      else some (String.intercalate "|" (testNamePatterns tests)) := by
  unfold formatTestPattern
  rw [formatTestPattern_foldl tests []]
  simp [List.isEmpty_iff]

/-- C10: a finished file whose task cannot be resolved to test data receives
no final result and its run — registered or not — is left untouched in the
file→run registry. -/
theorem finished_unresolved_file_untouched (resolve : String → Option ResolvedFile)
    (strip : String → String) (sep : Char) (st : RunnerState) (file : FileTask)
    (h : resolve file.key = none) :
    handleFinishedFile resolve strip sep st file = (st, []) := by
  unfold handleFinishedFile
  rw [h]

theorem finished_unresolved_file_untouched_witness :
    ((fun _ : String => (none : Option ResolvedFile)) "a.ts" = none) ∧
      handleFinishedFile (fun _ => none) id '/'
        { testRunsByFile := [("a.ts", 0)], nextRunId := 1 }
        { key := "a.ts", result := some { state := TaskState.fail } } =
        ({ testRunsByFile := [("a.ts", 0)], nextRunId := 1 }, []) :=
  ⟨rfl, finished_unresolved_file_untouched (fun _ => none) id '/'
    { testRunsByFile := [("a.ts", 0)], nextRunId := 1 }
    { key := "a.ts", result := some { state := TaskState.fail } } rfl⟩

theorem diffCondition_iff (err : ErrorWithDiff) :
    diffCondition err = true ↔
      (err.actual ≠ none ∧ err.expected ≠ none ∧
        err.actual ≠ some (JsVal.str "undefined") ∧
        err.expected ≠ some (JsVal.str "undefined")) := by
  unfold diffCondition
  rcases ha : err.actual with _ | a <;> rcases he : err.expected with _ | e <;>
    simp [ha, he]

/-- C4: for a `fail` error payload on a leaf task, when both the actual and
expected values are present (non-null) and neither is the literal token
`undefined`, the constructed message is a diff message built from the
ANSI-stripped error text plus expected and actual; otherwise it is a plain
message from the ANSI-stripped error text (with no diff payload). -/
theorem testMessage_diff_or_plain (strip : String → String) (sep : Char)
    (testItem : VSItem) (err : ErrorWithDiff) :
    ((err.actual ≠ none ∧ err.expected ≠ none ∧
        err.actual ≠ some (JsVal.str "undefined") ∧
        err.expected ≠ some (JsVal.str "undefined")) →
      (testMessageForTestError strip sep testItem (some err)).message = strip err.message ∧
      (testMessageForTestError strip sep testItem (some err)).expected = err.expected ∧
      (testMessageForTestError strip sep testItem (some err)).actual = err.actual) ∧
    (¬(err.actual ≠ none ∧ err.expected ≠ none ∧
        err.actual ≠ some (JsVal.str "undefined") ∧
        err.expected ≠ some (JsVal.str "undefined")) →
      (testMessageForTestError strip sep testItem (some err)).message = strip err.message ∧
      (testMessageForTestError strip sep testItem (some err)).expected = none ∧
      (testMessageForTestError strip sep testItem (some err)).actual = none) := by
  constructor
  · intro hc
    have hb : diffCondition err = true := (diffCondition_iff err).mpr hc
    cases hL : parseLocationFromStacks sep testItem (err.«stacks».getD []) <;>
      simp [testMessageForTestError, hb, hL]
  · intro hc
    have hb : diffCondition err = false := by
      cases h : diffCondition err
      · rfl
      · exact absurd ((diffCondition_iff err).mp h) hc
    cases hL : parseLocationFromStacks sep testItem (err.«stacks».getD []) <;>
      simp [testMessageForTestError, hb, hL]

/-- Witness for C4: a concrete payload with numeric actual and expected takes
the diff branch. -/
theorem testMessage_diff_or_plain_witness :
    ((some (JsVal.num 1) : Option JsVal) ≠ none ∧
        (some (JsVal.num 2) : Option JsVal) ≠ none ∧
        (some (JsVal.num 1) : Option JsVal) ≠ some (JsVal.str "undefined") ∧
        (some (JsVal.num 2) : Option JsVal) ≠ some (JsVal.str "undefined")) ∧
      (testMessageForTestError id '/' { fsPath := "a.ts" }
          (some { message := "boom", actual := some (JsVal.num 1),
                  expected := some (JsVal.num 2) })).message = id "boom" ∧
      (testMessageForTestError id '/' { fsPath := "a.ts" }
          (some { message := "boom", actual := some (JsVal.num 1),
                  expected := some (JsVal.num 2) })).expected = some (JsVal.num 2) ∧
      (testMessageForTestError id '/' { fsPath := "a.ts" }
          (some { message := "boom", actual := some (JsVal.num 1),
                  expected := some (JsVal.num 2) })).actual = some (JsVal.num 1) :=
  ⟨by decide,
    (testMessage_diff_or_plain id '/' { fsPath := "a.ts" }
      { message := "boom", actual := some (JsVal.num 1),
        expected := some (JsVal.num 2) }).1 (by decide)⟩

/-- C9: a `fail` result on a suite-typed task that carries no errors list
triggers no reporting call at all — neither `errored` nor `failed` — and
leaves the item's descriptive error text unchanged. -/
theorem markResult_suite_fail_no_errors_silent (strip : String → String)
    (sep : Char) (test : VSItem) (result : TaskResult) (task : TaskLite)
    (htype : task.type = TaskType.suite)
    (hstate : result.state = TaskState.fail)
    (herrs : result.errors = none) :
    markResult strip sep test (some result) (some task) = ([], test.error) := by
  rcases result with ⟨s, errs, dur⟩
  rcases task with ⟨ty⟩
  simp only at htype hstate herrs
  subst htype hstate herrs
  simp [markResult, taskIsSuite]

/-- Witness for C9. -/
theorem markResult_suite_fail_no_errors_silent_witness :
    (TaskLite.mk TaskType.suite).type = TaskType.suite ∧
      ({ state := TaskState.fail } : TaskResult).state = TaskState.fail ∧
      ({ state := TaskState.fail } : TaskResult).errors = none ∧
      markResult id '/' { fsPath := "a.ts", error := some "old" }
          (some { state := TaskState.fail }) (some (TaskLite.mk TaskType.suite)) =
        ([], some "old") :=
  ⟨rfl, rfl, rfl,
    markResult_suite_fail_no_errors_silent id '/'
      { fsPath := "a.ts", error := some "old" } { state := TaskState.fail }
      (TaskLite.mk TaskType.suite) rfl rfl rfl⟩

/-- Counterexample to C1 as stated: a task-update delivery carries only the
task id and the result snapshot, so `onTaskUpdate` invokes `markResult`
without the `task` argument and the suite guard `task?.type === 'suite'`
cannot fire.  Here the update is for the suite-typed task `file1_0` (its
explorer data resolves, through its owning file `a.ts`, to a registered run)
with a `fail` result, and the handler reports `failed` on the suite's item —
the call the claim says never happens. -/
theorem taskUpdate_suite_fail_reports_failed :
    (handleTaskUpdatePack
        (fun tid =>
          if tid = "file1_0" then
            some { data := TestData.case "a.ts" "my suite", item := { fsPath := "a.ts" } }
          else none)
        id '/'
        { testRunsByFile := [("a.ts", 0)] }
        "file1_0"
        (some { state := TaskState.fail, errors := some [{ message := "boom" }],
                duration := some 3 })).1 =
      [ReportCall.failed { fsPath := "a.ts" } [{ message := "boom" }] (some 3)] := by
  rfl

/-- C1 (amended): when the Result Mapper receives the task object — the
collected-event and finished-event paths — a `fail` result on a suite-typed
task never produces a `failed` call; if the result carries no errors list
nothing is reported, and if it carries one the concatenated error texts are
attached to the item and a single `errored` call is reported.  (On
task-update deliveries the task object is not passed, so this protection does
not apply there; see the counterexample.) -/
theorem markResult_suite_fail_with_task (strip : String → String) (sep : Char)
    (test : VSItem) (result : TaskResult) (task : TaskLite)
    (htype : task.type = TaskType.suite)
    (hstate : result.state = TaskState.fail) :
    (∀ msgs dur,
        ReportCall.failed test msgs dur ∉
          (markResult strip sep test (some result) (some task)).1) ∧
    (result.errors = none →
      markResult strip sep test (some result) (some task) = ([], test.error)) ∧
    (∀ errs, result.errors = some errs →
      markResult strip sep test (some result) (some task) =
        ([ReportCall.errored test
            (errs.map fun err => { message := jsStrOr err.stack err.message })
            result.duration],
          some (String.intercalate "\n"
            (errs.map fun err => jsStrOr err.stack err.message)))) := by
  rcases result with ⟨s, errs, dur⟩
  rcases task with ⟨ty⟩
  simp only at htype hstate
  subst htype hstate
  cases errs with
  | none => simp [markResult, taskIsSuite]
  | some es =>
    refine ⟨?_, ?_, ?_⟩
    · intro msgs dur'
      simp [markResult, taskIsSuite]
    · intro h
      exact absurd h (by simp)
    · intro errs' h
      simp only [Option.some_inj] at h
      subst h
      simp only [markResult, taskIsSuite, List.map_map]
      rfl

/-- Witness for the amended C1. -/
theorem markResult_suite_fail_with_task_witness :
    (TaskLite.mk TaskType.suite).type = TaskType.suite ∧
      ({ state := TaskState.fail,
          errors := some [{ message := "m1", stack := some "s1" }, { message := "m2" }],
          duration := some 7 } : TaskResult).state = TaskState.fail ∧
      markResult id '/' { fsPath := "a.ts" }
          (some { state := TaskState.fail,
                  errors := some [{ message := "m1", stack := some "s1" },
                    { message := "m2" }],
                  duration := some 7 })
          (some (TaskLite.mk TaskType.suite)) =
        ([ReportCall.errored { fsPath := "a.ts" }
            [{ message := "s1" }, { message := "m2" }] (some 7)],
          some "s1\nm2") := by
  refine ⟨rfl, rfl, ?_⟩
  have h := (markResult_suite_fail_with_task id '/' { fsPath := "a.ts" }
    { state := TaskState.fail,
      errors := some [{ message := "m1", stack := some "s1" }, { message := "m2" }],
      duration := some 7 }
    (TaskLite.mk TaskType.suite) rfl rfl).2.2
    [{ message := "m1", stack := some "s1" }, { message := "m2" }] rfl
  simpa [jsStrOr] using h

/-- Spec wording for C8, tracking the character that precedes the scan
position in the original string: every `\n` whose predecessor is not `\r` is
rewritten to `\r\n`; every other character — including the `\n` of a
pre-existing `\r\n` pair — is kept as-is. -/
def rewriteBareNewlinesSpec (prev : Option Char) : List Char → List Char
  | [] => []
  | c :: rest =>
    (if c = '\n' ∧ prev ≠ some '\r' then ['\r', '\n'] else [c]) ++
      rewriteBareNewlinesSpec (some c) rest

theorem rewriteSpec_prev_irrelevant (p q : Option Char) (l : List Char)
    (h : ∀ c, l.head? = some c → c ≠ '\n') :
    rewriteBareNewlinesSpec p l = rewriteBareNewlinesSpec q l := by
  cases l with
  | nil => rfl
  | cons c rest =>
    have hc : c ≠ '\n' := h c rfl
    simp [rewriteBareNewlinesSpec, hc]

theorem replaceBareNewlines_eq_spec (l : List Char) :
    ∀ p : Option Char, p ≠ some '\r' →
      replaceBareNewlines l = rewriteBareNewlinesSpec p l := by
  induction l using replaceBareNewlines.induct with
  | case1 => intro p hp; rfl
  | case2 rest ih =>
    intro p hp
    have hr : replaceBareNewlines ('\r' :: '\n' :: rest) =
        '\r' :: '\n' :: replaceBareNewlines rest := rfl
    rw [hr, ih (some '\n') (by simp)]
    simp [rewriteBareNewlinesSpec, hp]
  | case3 rest ih =>
    intro p hp
    have hr : replaceBareNewlines ('\n' :: rest) =
        '\r' :: '\n' :: replaceBareNewlines rest := rfl
    rw [hr, ih (some '\n') (by simp)]
    simp [rewriteBareNewlinesSpec, hp]
  | case4 c rest h1 h2 ih =>
    intro p hp
    have hr : replaceBareNewlines (c :: rest) = c :: replaceBareNewlines rest := by
      rw [replaceBareNewlines.eq_def]
      split
      · rename_i heq; cases heq
      · rename_i rest1 heq
        injection heq with hA hB
        exact (h1 rest1 hA hB).elim
      · rename_i rest1 heq
        injection heq with hA hB
        exact (h2 hA).elim
      · rename_i c2 rest2 hx1 hx2 heq
        injection heq with hA hB
        rw [hA, hB]
    rw [hr]
    have hspec : rewriteBareNewlinesSpec p (c :: rest) =
        c :: rewriteBareNewlinesSpec (some c) rest := by
      have hnc : ¬(c = '\n' ∧ p ≠ some '\r') := fun hand => h2 hand.1
      simp [rewriteBareNewlinesSpec, hnc]
    rw [hspec]
    by_cases hcr : c = '\r'
    · subst hcr
      have hhead : ∀ d, rest.head? = some d → d ≠ '\n' := by
        intro d hd hdn
        subst hdn
        cases rest with
        | nil => exact Option.noConfusion hd
        | cons e t =>
          simp only [List.head?_cons, Option.some_inj] at hd
          subst hd
          exact h1 t rfl rfl
      exact congrArg (List.cons '\r')
        ((ih none (by simp)).trans
          (rewriteSpec_prev_irrelevant none (some '\r') rest hhead))
    · exact congrArg (List.cons c) (ih (some c) (by simp [hcr]))

/-- C8: for every console-log content attributed to a tracked run, the text
appended to the run's output is the content with every `\n` not immediately
preceded by `\r` rewritten to `\r\n` and every pre-existing `\r\n` sequence
left unchanged. -/
theorem consoleLog_normalizes_line_endings
    (resolve : Option String → Option (Nat × VSItem)) (content : String)
    (taskId : Option String) (runId : Nat) (item : VSItem)
    (h : resolve taskId = some (runId, item)) :
    handleConsoleLog resolve content taskId =
      ConsoleEffect.appendOutput runId
        (String.mk (rewriteBareNewlinesSpec none content.data)) (some item) := by
  unfold handleConsoleLog
  rw [h]
  simp [normalizeLineEndings,
    replaceBareNewlines_eq_spec content.data none (by simp)]

/-- Witness for C8 on a concrete content string holding both a bare `\n` and
a pre-existing `\r\n`. -/
theorem consoleLog_normalizes_line_endings_witness :
    ((fun _ : Option String => some (0, ({ fsPath := "a.ts" } : VSItem)))
        (some "t1") = some (0, ({ fsPath := "a.ts" } : VSItem))) ∧
      handleConsoleLog (fun _ => some (0, { fsPath := "a.ts" }))
          "a\nb\r\nc" (some "t1") =
        ConsoleEffect.appendOutput 0 "a\r\nb\r\nc" (some { fsPath := "a.ts" }) := by
  refine ⟨rfl, ?_⟩
  rw [consoleLog_normalizes_line_endings (fun _ => some (0, { fsPath := "a.ts" }))
    "a\nb\r\nc" (some "t1") 0 { fsPath := "a.ts" } rfl]
  rfl

theorem foldl_appendInclude (regs : List WReq) :
    ∀ acc, regs.foldl appendInclude acc = acc ++ regs.flatMap WReq.includeList := by
  induction regs with
  | nil => intro acc; simp
  | cons r rest ih =>
    intro acc
    rw [List.foldl_cons, ih]
    simp [appendInclude, List.flatMap_cons]

/-- Counterexample to C2 as stated: registration 1 is active with no
inclusion filter (a watch-everything registration), and a second continuous
request arrives whose inclusion set is the single file `a.ts`.  The watch
filter then passed to the watcher is the *filtered* one over the union of the
inclusion sets — not "everything" — because the unfiltered branch is chosen
by looking only at the most recently added request. -/
theorem watch_overrides_unfiltered_registration :
    (watchContinuousTests id [{ id := 1 }]
        { id := 2, include? := some [TItem.mk (TestData.file "a.ts") "a.ts" []] }).2 =
      WatchCall.filtered ["a.ts"] none ∧
    (watchContinuousTests id [{ id := 1 }]
        { id := 2, include? := some [TItem.mk (TestData.file "a.ts") "a.ts" []] }).2 ≠
      WatchCall.all := by
  refine ⟨rfl, ?_⟩
  intro h
  rw [show (watchContinuousTests id [{ id := 1 }]
      { id := 2, include? := some [TItem.mk (TestData.file "a.ts") "a.ts" []] }).2 =
      WatchCall.filtered ["a.ts"] none from rfl] at h
  cases h

/-- C2 (amended): after registering the incoming request, the watch started
for it is unfiltered exactly when the *incoming* request has no inclusion
filter — an earlier watch-everything registration does not make a later
filtered request watch everything; in the filtered case the watch filter is
computed from the union (in registration order) of all active registrations'
inclusion sets, registrations without an inclusion filter contributing
nothing. -/
theorem watchContinuousTests_merged_filter (norm : String → String)
    (regs : List WReq) (req : WReq) :
    (watchContinuousTests norm regs req).1 = addRequest regs req ∧
    (req.includeList.isEmpty = true →
      (watchContinuousTests norm regs req).2 = WatchCall.all) ∧
    (req.includeList.isEmpty = false →
      (watchContinuousTests norm regs req).2 =
        WatchCall.filtered
          (getTestFiles norm ((addRequest regs req).flatMap WReq.includeList))
          (formatTestPattern ((addRequest regs req).flatMap WReq.includeList))) := by
  unfold watchContinuousTests
  cases h : req.includeList.isEmpty <;>
    simp [h, foldl_appendInclude]

/-- Witness for the amended C2: a request with a one-file inclusion set joins
a watch-everything registration; the resulting watch is filtered to that
file's path with no name pattern. -/
theorem watchContinuousTests_merged_filter_witness :
    (({ id := 2, include? := some [TItem.mk (TestData.file "b.ts") "b.ts" []] } :
          WReq).includeList.isEmpty = false) ∧
      (watchContinuousTests id [{ id := 1 }]
          { id := 2, include? := some [TItem.mk (TestData.file "b.ts") "b.ts" []] }).2 =
        WatchCall.filtered ["b.ts"] none := by
  refine ⟨rfl, ?_⟩
  rw [(watchContinuousTests_merged_filter id [{ id := 1 }]
    { id := 2, include? := some [TItem.mk (TestData.file "b.ts") "b.ts" []] }).2.2 rfl]
  rfl

/-- Counterexample to C3 as stated: when the underlying execution call
throws, the one-shot marker is not cleared — the assignment after the
`await` never runs — while the failure does propagate to the caller. -/
theorem runTests_error_keeps_marker :
    (runTests id ({} : RunnerState) { id := 1 }
        (Except.error "boom")).state.simpleTestRunRequest = some { id := 1 } ∧
    (runTests id ({} : RunnerState) { id := 1 }
        (Except.error "boom")).state.simpleTestRunRequest ≠ none ∧
    (runTests id ({} : RunnerState) { id := 1 }
        (Except.error "boom")).outcome = Except.error "boom" := by
  refine ⟨rfl, ?_, rfl⟩
  intro h
  rw [show (runTests id ({} : RunnerState) { id := 1 }
      (Except.error "boom")).state.simpleTestRunRequest = some { id := 1 } from rfl] at h
  cases h

/-- C3 (amended): for a non-continuous `runTests` call, the one-shot request
marker is cleared when the underlying execution call returns successfully;
when that call throws, the failure propagates to the caller unchanged and the
marker remains set to the request (only the cancellation handler clears it on
that path — there is no `finally`). -/
theorem runTests_marker_clearing (norm : String → String) (st : RunnerState)
    (req : WReq) (o : Except String Unit) (hc : req.continuous = false) :
    (o = Except.ok () →
      (runTests norm st req o).state.simpleTestRunRequest = none ∧
      (runTests norm st req o).outcome = Except.ok ()) ∧
    (∀ e, o = Except.error e →
      (runTests norm st req o).state.simpleTestRunRequest = some req ∧
      (runTests norm st req o).outcome = Except.error e) := by
  cases o with
  | ok u =>
    cases u
    refine ⟨fun _ => ?_, fun e h => Except.noConfusion h⟩
    constructor <;> simp [runTests, hc]
  | error e =>
    refine ⟨fun h => Except.noConfusion h, fun e2 h => ?_⟩
    injection h with he
    subst he
    constructor <;> simp [runTests, hc]

/-- Witness for the amended C3: a successful call clears the marker. -/
theorem runTests_marker_clearing_witness :
    (({ id := 1 } : WReq).continuous = false) ∧
      (runTests id ({} : RunnerState) { id := 1 }
          (Except.ok ())).state.simpleTestRunRequest = none ∧
      (runTests id ({} : RunnerState) { id := 1 }
          (Except.ok ())).outcome = Except.ok () :=
  ⟨rfl, (runTests_marker_clearing id ({} : RunnerState) { id := 1 }
    (Except.ok ()) rfl).1 rfl⟩

/-- The number of registry entries recorded for one file. -/
def countRunsFor (file : String) (runs : List (String × Nat)) : Nat :=
  (runs.filter fun p => decide (p.1 = file)).length

theorem lookupRun_none_iff (f : String) :
    ∀ l, lookupRun f l = none ↔ countRunsFor f l = 0 := by
  intro l
  induction l with
  | nil => simp [lookupRun, countRunsFor]
  | cons p rest ih =>
    rcases p with ⟨g, r⟩
    by_cases hg : g = f
    · simp [lookupRun, countRunsFor, hg]
    · simpa [lookupRun, countRunsFor, hg] using ih

theorem lookupRun_append_of_none (f : String) (i : Nat) :
    ∀ l, lookupRun f l = none → lookupRun f (l ++ [(f, i)]) = some i := by
  intro l
  induction l with
  | nil => intro _; simp [lookupRun]
  | cons p rest ih =>
    intro h
    rcases p with ⟨g, r⟩
    by_cases hg : g = f
    · simp [lookupRun, hg] at h
    · simp only [List.cons_append, lookupRun, if_neg hg] at h ⊢
      exact ih h

theorem countRunsFor_append_self (f : String) (i : Nat) (l : List (String × Nat)) :
    countRunsFor f (l ++ [(f, i)]) = countRunsFor f l + 1 := by
  simp [countRunsFor, List.filter_append]

/-- C7: starting a run is idempotent per file.  For a file path (not a folder
marker) that the request's inclusion filter covers, starting twice with that
file and request leaves the runner state exactly as after the first start,
and the file→run registry holds exactly one run for that file — so at most
one active run per file exists (the registry is assumed well-formed on entry:
at most one pre-existing entry for the file). -/
theorem startTestRun_idempotent (folderFiles : String → List String)
    (st : RunnerState) (file : String) (req : WReq)
    (hnf : isFolderPath file = false)
    (hincl : includeSkips req file = false)
    (hcount : countRunsFor file st.testRunsByFile ≤ 1) :
    startTestRun folderFiles (startTestRun folderFiles st [file] (some req))
        [file] (some req) =
      startTestRun folderFiles st [file] (some req) ∧
    countRunsFor file
        (startTestRun folderFiles st [file] (some req)).testRunsByFile = 1 := by
  have hred : ∀ s : RunnerState,
      startTestRun folderFiles s [file] (some req) = processRunFile req s file := by
    intro s
    unfold startTestRun resolveRequest
    simp [Option.orElse, startTestRunLoop, hnf]
  simp only [hred]
  cases hl : lookupRun file st.testRunsByFile with
  | some r =>
    have hs1 : processRunFile req st file = st := by
      simp [processRunFile, hincl, hl]
    rw [hs1]
    refine ⟨hs1, ?_⟩
    have h0 : countRunsFor file st.testRunsByFile ≠ 0 := by
      intro h
      rw [← lookupRun_none_iff] at h
      rw [h] at hl
      cases hl
    omega
  | none =>
    have hs1 : processRunFile req st file =
        { st with
          testRunsByFile := st.testRunsByFile ++ [(file, st.nextRunId)]
          nextRunId := st.nextRunId + 1 } := by
      simp [processRunFile, hincl, hl]
    rw [hs1]
    have hl2 : lookupRun file (st.testRunsByFile ++ [(file, st.nextRunId)]) =
        some st.nextRunId :=
      lookupRun_append_of_none file st.nextRunId st.testRunsByFile hl
    constructor
    · simp [processRunFile, hincl, hl2]
    · have h0 : countRunsFor file st.testRunsByFile = 0 :=
        (lookupRun_none_iff file st.testRunsByFile).mp hl
      simp [countRunsFor_append_self, h0]

/-- Witness for C7: starting twice from the empty registry registers exactly
one run for the file. -/
theorem startTestRun_idempotent_witness :
    isFolderPath "a.ts" = false ∧
      includeSkips { id := 1 } "a.ts" = false ∧
      countRunsFor "a.ts" ({} : RunnerState).testRunsByFile ≤ 1 ∧
      (startTestRun (fun _ => [])
          (startTestRun (fun _ => []) ({} : RunnerState) ["a.ts"] (some { id := 1 }))
          ["a.ts"] (some { id := 1 }) =
        startTestRun (fun _ => []) ({} : RunnerState) ["a.ts"] (some { id := 1 }) ∧
      countRunsFor "a.ts"
          (startTestRun (fun _ => []) ({} : RunnerState) ["a.ts"]
            (some { id := 1 })).testRunsByFile = 1) :=
  ⟨by decide, rfl, by decide,
    startTestRun_idempotent (fun _ => []) ({} : RunnerState) "a.ts" { id := 1 }
      (by decide) rfl (by decide)⟩

end VitestRunner
